import Mathlib

/-!
Verification of the tmdb-react proxy handlers.

Shallow embedding of the chain-of-responsibility edge handler in
src/api/index.js (first document): the URL helpers, the guard handlers, the
bounded request cache, the upstream fetch stage, and the composed pipeline.
Machine strings are Lean strings; the network is an oracle function passed in
the environment; effects (log lines, cache mutation, the upstream call) are
made observable through an explicit state and an event trace.
-/

namespace TmdbProxy

/-- A parsed absolute http(s) URL: scheme, lowercased hostname, and the rest
of the serialization (path, query, fragment).  Models the observable outcome
of the WHATWG URL parser for the credential-free, port-free URLs this proxy
handles; a port or userinfo marker ends the hostname. -/
structure Url where
  scheme : String
  host : String
  path : String
  deriving DecidableEq

/-- Models URL.prototype.toString for the parsed form above. -/
def urlToString (u : Url) : String := u.scheme ++ "://" ++ u.host ++ u.path

/-- Character-wise lowercasing (String.toLowerCase). -/
def lowerStr (s : String) : String := String.mk (s.toList.map Char.toLower)

/-- Character-wise prefix test (String.prototype.startsWith). -/
def startsWithStr (s p : String) : Bool := List.isPrefixOf p.toList s.toList

/-- Parses the part after the scheme marker: the hostname runs to the first
slash, backslash, question mark, hash or colon, is lowercased as the URL
parser normalizes it, and must be nonempty or parsing fails (the constructor
throws). An empty remainder serializes as the root path. -/
def parseHostRest (scheme rest : String) : Option Url :=
  let hostChars := rest.toList.takeWhile fun c =>
    !(c == '/' || c == '\\' || c == '?' || c == '#' || c == ':')
  if hostChars.isEmpty then none
  else
    let tail := String.mk (rest.toList.drop hostChars.length)
    some ⟨scheme, lowerStr (String.mk hostChars), if tail.isEmpty then "/" else tail⟩

/-- Parses an absolute http or https URL string (scheme matching is
case-insensitive, as in the URL parser). -/
def parseAbsUrl (s : String) : Option Url :=
  if startsWithStr (lowerStr s) "https://" then parseHostRest "https" (s.drop 8)
  else if startsWithStr (lowerStr s) "http://" then parseHostRest "http" (s.drop 7)
  else none

/-- The directory part of a URL path: everything up to and including the last
slash; used when resolving a relative reference against a base URL. -/
def dirPath (p : String) : String :=
  String.mk ((p.toList.reverse.dropWhile fun c => c ≠ '/').reverse)

/-- Models the constructor new URL(s, base) for the references this proxy can
receive: an absolute http(s) reference replaces the base entirely, a
protocol-relative reference keeps the base scheme, an absolute path keeps the
base scheme and host, an empty reference yields the base, and any other
reference resolves against the base directory.  Either argument failing to
parse (the constructor throwing a TypeError) is modelled as none. -/
def resolveUrl (s : String) (base : String) : Option Url :=
  match parseAbsUrl base with
  | none => none
  | some b =>
    if startsWithStr (lowerStr s) "https://" || startsWithStr (lowerStr s) "http://" then
      parseAbsUrl s
    else if startsWithStr s "//" then
      parseHostRest b.scheme (s.drop 2)
    else if startsWithStr s "/" then
      some ⟨b.scheme, b.host, s⟩
    else if s.isEmpty then
      some b
    else
      some ⟨b.scheme, b.host, dirPath b.path ++ s⟩

/-- Models the JavaScript parseInt applied to a decimal string: leading
whitespace is skipped, one sign character is honoured, the longest leading
digit run is converted, and the result is NaN (here none) when no digit is
found. -/
def parseIntJs (s : String) : Option Int :=
  let cs := s.toList.dropWhile fun c => c == ' ' || c == '\t' || c == '\n' || c == '\r'
  let signed : Bool × List Char :=
    match cs with
    | '-' :: t => (true, t)
    | '+' :: t => (false, t)
    | t => (false, t)
  let digits := signed.2.takeWhile Char.isDigit
  if digits.isEmpty then none
  else
    let n : Nat := digits.foldl (fun a c => a * 10 + (c.toNat - 48)) 0
    some (if signed.1 then -(n : Int) else (n : Int))

/-- Helper for strIncludes: does the needle occur in the haystack. -/
def charsInclude : List Char → List Char → Bool
  | _, [] => true
  | [], _ :: _ => false
  | h :: t, n => (List.isPrefixOf n (h :: t)) || charsInclude t n

/-- Models JavaScript String.prototype.includes. -/
def strIncludes (hay needle : String) : Bool := charsInclude hay.toList needle.toList

/-- The JSON value model used for request and response bodies.  Numbers are
integral, which covers every body these handlers construct themselves. -/
inductive Json where
  | jnull
  | jbool (b : Bool)
  | jnum (n : Int)
  | jstr (s : String)
  | jarr (elems : List Json)
  | jobj (fields : List (String × Json))

/-- String escaping as JSON.stringify performs it for the characters the
handlers produce. -/
def jsEscape (s : String) : String :=
  s.toList.foldl (fun acc c =>
    acc ++ (if c == '"' then "\\\"" else if c == '\\' then "\\\\" else String.singleton c)) ""

mutual

/-- Models JSON.stringify on the JSON value model. -/
def Json.stringify : Json → String
  | .jnull => "null"
  | .jbool true => "true"
  | .jbool false => "false"
  | .jnum n => toString n
  | .jstr s => "\"" ++ jsEscape s ++ "\""
  | .jarr es => "[" ++ Json.stringifyElems es ++ "]"
  | .jobj fs => "\x7b" ++ Json.stringifyFields fs ++ "\x7d"

/-- Comma-separated serialization of array elements. -/
def Json.stringifyElems : List Json → String
  | [] => ""
  | [j] => Json.stringify j
  | j :: t => Json.stringify j ++ "," ++ Json.stringifyElems t

/-- Comma-separated serialization of object members. -/
def Json.stringifyFields : List (String × Json) → String
  | [] => ""
  | [(k, v)] => "\"" ++ jsEscape k ++ "\":" ++ Json.stringify v
  | (k, v) :: t =>
    "\"" ++ jsEscape k ++ "\":" ++ Json.stringify v ++ "," ++ Json.stringifyFields t

end

/-- JavaScript truthiness of a JSON value (null, false, 0 and the empty
string are falsy). -/
def jsTruthy : Json → Bool
  | .jnull => false
  | .jbool b => b
  | .jnum n => n != 0
  | .jstr s => s != ""
  | .jarr _ => true
  | .jobj _ => true

/-- Skips JSON whitespace. -/
def skipWs (cs : List Char) : List Char :=
  cs.dropWhile fun c => c == ' ' || c == '\n' || c == '\t' || c == '\r'

/-- Parses a nonempty leading digit run. -/
def parseDigits (cs : List Char) : Option (Nat × List Char) :=
  let ds := cs.takeWhile Char.isDigit
  if ds.isEmpty then none
  else some (ds.foldl (fun a c => a * 10 + (c.toNat - 48)) 0, cs.drop ds.length)

/-- Parses the remainder of a JSON string after the opening quote, honouring
backslash escapes. -/
def parseJsonStr : List Char → Option (String × List Char)
  | [] => none
  | '"' :: t => some ("", t)
  | '\\' :: e :: t =>
    (parseJsonStr t).map fun sr =>
      ((if e == 'n' then "\n" else if e == 't' then "\t" else String.singleton e) ++ sr.1, sr.2)
  | c :: t => (parseJsonStr t).map fun sr => (String.singleton c ++ sr.1, sr.2)

/-- The opening brace character, by code point. -/
def lbrace : Char := Char.ofNat 123

/-- The closing brace character, by code point. -/
def rbrace : Char := Char.ofNat 125

mutual

/-- Fuel-bounded recursive-descent JSON value parser; the fuel bounds the
nesting and element count and is chosen large enough by jsonParse. -/
def parseJsonVal : Nat → List Char → Option (Json × List Char)
  | 0, _ => none
  | fuel + 1, cs =>
    match skipWs cs with
    | 'n' :: 'u' :: 'l' :: 'l' :: t => some (.jnull, t)
    | 't' :: 'r' :: 'u' :: 'e' :: t => some (.jbool true, t)
    | 'f' :: 'a' :: 'l' :: 's' :: 'e' :: t => some (.jbool false, t)
    | '"' :: t => (parseJsonStr t).map fun sr => (.jstr sr.1, sr.2)
    | '[' :: t =>
      (match skipWs t with
       | ']' :: r => some (.jarr [], r)
       | t2 => (parseJsonElems fuel t2).map fun er => (.jarr er.1, er.2))
    | '-' :: t => (parseDigits t).map fun nr => (.jnum (-(nr.1 : Int)), nr.2)
    | c :: t =>
      if c == lbrace then
        let r0 := skipWs t
        if r0.head? == some rbrace then some (.jobj [], r0.tail)
        else (parseJsonFields fuel r0).map fun fr => (.jobj fr.1, fr.2)
      else if c.isDigit then
        (parseDigits (c :: t)).map fun nr => (.jnum (nr.1 : Int), nr.2)
      else none
    | [] => none

/-- Parses the elements of a nonempty JSON array up to the closing bracket. -/
def parseJsonElems : Nat → List Char → Option (List Json × List Char)
  | 0, _ => none
  | fuel + 1, cs =>
    match parseJsonVal fuel cs with
    | none => none
    | some (j, r) =>
      match skipWs r with
      | ',' :: r2 => (parseJsonElems fuel r2).map fun er => (j :: er.1, er.2)
      | ']' :: r2 => some ([j], r2)
      | _ => none

/-- Parses the members of a nonempty JSON object up to the closing brace. -/
def parseJsonFields : Nat → List Char → Option (List (String × Json) × List Char)
  | 0, _ => none
  | fuel + 1, cs =>
    match skipWs cs with
    | '"' :: t =>
      (match parseJsonStr t with
       | none => none
       | some (k, r) =>
         match skipWs r with
         | ':' :: r2 =>
           (match parseJsonVal fuel r2 with
            | none => none
            | some (v, r3) =>
              match skipWs r3 with
              | ',' :: r4 => (parseJsonFields fuel r4).map fun fr => ((k, v) :: fr.1, fr.2)
              | r4 =>
                if r4.head? == some rbrace then some ([(k, v)], r4.tail)
                else none)
         | _ => none)
    | _ => none

end

/-- Models JSON.parse: parses a complete JSON document, returning none when
the JavaScript call would throw a SyntaxError. -/
def jsonParse (s : String) : Option Json :=
  match parseJsonVal (s.length + 1) s.toList with
  | some (j, r) => if (skipWs r).isEmpty then some j else none
  | none => none

/-- Header lists carry their names already lowercased, as the Headers wrapper
normalizes them; getHeader models headers.get, returning the first match or
null. -/
def getHeader (hs : List (String × String)) (name : String) : Option String :=
  (hs.find? fun kv => kv.fst == name).map Prod.snd

/-- An inbound request as the handlers observe it.  pathParam models the
value of new URL(request.url).searchParams.get('path'); body is the raw
request body, none when the request carries none. -/
structure Request where
  method : String
  pathParam : Option String
  headers : List (String × String)
  body : Option String
  deriving DecidableEq

/-- A constructed Response: status, body text, and headers in the order the
object literal lists them. -/
structure Response where
  status : Nat
  body : String
  headers : List (String × String)
  deriving DecidableEq

/-- Models await request.json(): parses the raw body, throwing (none) when
the body is absent or not valid JSON. -/
def Request.jsonBody (r : Request) : Option Json :=
  match r.body with
  | none => none
  | some s => jsonParse s

/-- The ALLOWED_METHODS constant of src/api/index.js. -/
def ALLOWED_METHODS : List String := ["GET", "POST", "PUT", "PATCH", "DELETE", "OPTIONS"]

/-- The CORS_HEADERS constant of src/api/index.js, in spread order. -/
def CORS_HEADERS : List (String × String) :=
  [("Access-Control-Allow-Origin", "*"),
   ("Access-Control-Allow-Headers", "Content-Type, Authorization"),
   ("Access-Control-Max-Age", "86400")]

/-- The MAX_BODY_SIZE constant: five megabytes. -/
def MAX_BODY_SIZE : Int := 1024 * 1024 * 5

/-- The methods for which the handlers inspect or forward a body. -/
def mutatingMethods : List String := ["POST", "PUT", "PATCH"]

/-- Models getFullUrl of src/api/index.js: reads the path query parameter and
resolves it against the configured API_URL; a missing or empty (falsy)
parameter yields null. -/
def getFullUrl (apiUrl : String) (req : Request) : Option Url :=
  match req.pathParam with
  | none => none
  | some p => if p == "" then none else resolveUrl p apiUrl

/-- Truthiness of the authorization header as generateCacheKey tests it. -/
def authHeaderTruthy (req : Request) : Bool :=
  match getHeader req.headers "authorization" with
  | some v => v != ""
  | none => false

/-- Models generateCacheKey of src/api/index.js: the method, the full URL and
a JSON-serialized record of the accept header value and of whether an
authorization header is present. -/
def generateCacheKey (req : Request) (fullUrl : Url) : String :=
  let headersKey := Json.stringify (.jobj
    [("accept",
      match getHeader req.headers "accept" with
      | some v => .jstr v
      | none => .jnull),
     ("authorization", if authHeaderTruthy req then .jstr "present" else .jnull)])
  req.method ++ ":" ++ urlToString fullUrl ++ ":" ++ headersKey

/-- JavaScript Map lookup on an insertion-ordered association list. -/
def jsMapGet (m : List (String × α)) (k : String) : Option α :=
  (m.find? fun kv => kv.fst == k).map Prod.snd

/-- JavaScript Map set: an existing key keeps its position in insertion
order and only its value is replaced; a new key is appended at the end. -/
def jsMapSet (m : List (String × α)) (k : String) (v : α) : List (String × α) :=
  match m with
  | [] => [(k, v)]
  | (k0, v0) :: t => if k0 == k then (k0, v) :: t else (k0, v0) :: jsMapSet t k v

/-- JavaScript Map delete: removes the entry of the given key.  Map keys are
unique, so removing the first matching entry is faithful. -/
def jsMapDelete (m : List (String × α)) (k : String) : List (String × α) :=
  match m with
  | [] => []
  | (k0, v0) :: t => if k0 == k then t else (k0, v0) :: jsMapDelete t k

/-- The RequestCache class of src/api/index.js: a Map together with the
configured capacity. -/
structure RequestCache (α : Type) where
  cache : List (String × α)
  maxSize : Nat

/-- Models RequestCache.get. -/
def RequestCache.get (c : RequestCache α) (key : String) : Option α :=
  jsMapGet c.cache key

/-- Models RequestCache.set: at or above capacity the first key in iteration
order (cache.keys().next().value, the least-recently-inserted key) is
deleted before the new entry is stored; on an empty map the delete of the
undefined key is a no-op. -/
def RequestCache.set (c : RequestCache α) (key : String) (value : α) : RequestCache α :=
  let afterEvict :=
    if c.maxSize ≤ c.cache.length then
      match c.cache.head? with
      | some kv => jsMapDelete c.cache kv.fst
      | none => c.cache
    else c.cache
  { c with cache := jsMapSet afterEvict key value }

/-- The options record handed to fetch: method, final headers (after the
Content-Type mutation for body-carrying methods), and the serialized body. -/
structure FetchOptions where
  method : String
  headers : List (String × String)
  body : Option String
  deriving DecidableEq

/-- The upstream response as fetch resolves it: status, body text and
headers; ok is derived as status in the 200 range, as on the Response
object. -/
structure UpstreamResp where
  status : Nat
  body : String
  headers : List (String × String)
  deriving DecidableEq

/-- Models Response.ok of the upstream response. -/
def UpstreamResp.ok (r : UpstreamResp) : Bool := 200 ≤ r.status && r.status < 300

/-- A thrown error object: the optional status attached to it and its
message. -/
structure Err where
  status : Option Nat
  message : String
  deriving DecidableEq

/-- Observable events of one pipeline run, in chronological order: each
handler records one event when it performs its check or action.  The log
event is recorded when logger.log runs, on the way back out; the fetch event
is recorded exactly when the network call is made and carries the URL and
options passed to fetch. -/
inductive Ev where
  | checkMethod
  | checkBodySize
  | checkContentType
  | checkPath
  | armTimeout
  | cacheLookup
  | fetchUpstream (url : Url) (opts : FetchOptions)
  | logLine (status : Nat)
  deriving DecidableEq

/-- The per-run mutable state: the event trace and the shared RequestCache
instance. -/
structure St where
  events : List Ev
  cacheSt : RequestCache Json

/-- Appends one event to the trace. -/
def emit (e : Ev) (st : St) : St := { st with events := st.events ++ [e] }

/-- The deployment environment: the configured API_URL and API_ACCESS_TOKEN,
and the network as an oracle resolving each fetch call. -/
structure Env where
  apiUrl : String
  token : String
  fetchFn : Url → FetchOptions → UpstreamResp

/-- The type of a handler continuation (the next field of a Handler): it
receives the request and the current state and produces either a returned
Response or a thrown error, together with the next state. -/
abbrev HandlerFn := Request → St → Except Err Response × St

/-- Models MethodValidationHandler.handle: a disallowed method is answered
405 with an Allow header listing the permitted methods; an allowed method is
delegated unchanged. -/
def methodValidationHandle (allowedMethods : List String) (next : HandlerFn) : HandlerFn :=
  fun req st =>
    let st := emit .checkMethod st
    if allowedMethods.contains req.method then next req st
    else
      (.ok ⟨405, "Method " ++ req.method ++ " not allowed",
            [("Allow", String.intercalate ", " allowedMethods),
             ("Content-Type", "text/plain")] ++ CORS_HEADERS⟩, st)

/-- The 413 condition of BodySizeHandler.handle: a present, nonempty
content-length header whose parseInt value exceeds the limit. -/
def declaredTooLarge (maxSize : Int) (req : Request) : Bool :=
  match getHeader req.headers "content-length" with
  | some v =>
    v != "" &&
      (match parseIntJs v with
       | some n => maxSize < n
       | none => false)
  | none => false

/-- Models BodySizeHandler.handle: for body-carrying methods a declared
content-length above the limit is answered 413; everything else is
delegated unchanged (the body itself is never read). -/
def bodySizeHandle (maxSize : Int) (next : HandlerFn) : HandlerFn :=
  fun req st =>
    let st := emit .checkBodySize st
    if mutatingMethods.contains req.method && declaredTooLarge maxSize req then
      (.ok ⟨413, "Payload too large, max " ++ toString maxSize ++ " bytes allowed",
            ("Content-Type", "text/plain") :: CORS_HEADERS⟩, st)
    else next req st

/-- The 415 condition of ContentTypeHandler.handle: the content-type header
is absent or falsy, or does not include application/json. -/
def badContentType (req : Request) : Bool :=
  match getHeader req.headers "content-type" with
  | some v => v == "" || !(strIncludes v "application/json")
  | none => true

/-- Models ContentTypeHandler.handle: body-carrying methods must declare a
JSON content type or are answered 415; other methods are delegated
unchanged. -/
def contentTypeHandle (next : HandlerFn) : HandlerFn :=
  fun req st =>
    let st := emit .checkContentType st
    if mutatingMethods.contains req.method && badContentType req then
      (.ok ⟨415, "Content-Type must be application/json",
            ("Content-Type", "text/plain") :: CORS_HEADERS⟩, st)
    else next req st

/-- Models isValidPath of ValidationHandler: the full URL string is parsed
again and its hostname compared with the hostname of the configured apiUrl;
any parse failure yields false.  Re-parsing the serialization of a parsed
URL gives the URL back, so the model compares the parsed form directly. -/
def isValidPath (fullUrl : Url) (apiUrl : String) : Bool :=
  match parseAbsUrl apiUrl with
  | some b => fullUrl.host == b.host
  | none => false

/-- The 400 response of ValidationHandler. -/
def invalidPathResponse : Response :=
  ⟨400, "Invalid or missing \"path\" parameter",
   ("Content-Type", "text/plain") :: CORS_HEADERS⟩

/-- Models ValidationHandler.handle: a missing full URL or one whose
hostname differs from the configured upstream host is answered 400;
otherwise the request is delegated unchanged. -/
def validationHandle (apiUrl : String) (next : HandlerFn) : HandlerFn :=
  fun req st =>
    let st := emit .checkPath st
    match getFullUrl apiUrl req with
    | none => (.ok invalidPathResponse, st)
    | some u =>
      if isValidPath u apiUrl then next req st
      else (.ok invalidPathResponse, st)

/-- Models LoggingHandler.handle: delegates, then logs the response status,
or logs error.status (500 when absent) and rethrows. -/
def loggingHandle (next : HandlerFn) : HandlerFn :=
  fun req st =>
    match next req st with
    | (.ok resp, st2) => (.ok resp, emit (.logLine resp.status) st2)
    | (.error e, st2) => (.error e, emit (.logLine (e.status.getD 500)) st2)

/-- Models TimeoutHandler.handle on the path the embedding covers: the timer
is armed (recorded as an event), the inner handler runs, and the timer is
cleared.  The AbortError branch is a real-time behaviour outside the model;
no theorem relies on it. -/
def timeoutHandle (next : HandlerFn) : HandlerFn :=
  fun req st => next req (emit .armTimeout st)

/-- Models ApiFetchHandler.handle: builds the Authorization and Accept
headers, parses and re-serializes the JSON body for body-carrying methods
(answering 400 on a parse failure, without fetching), performs the fetch,
and re-wraps a non-ok upstream response with its status and CORS headers. -/
def apiFetchHandle (env : Env) : HandlerFn :=
  fun req st =>
    match getFullUrl env.apiUrl req with
    | none =>
      -- fetch(null) cannot be reached behind ValidationHandler; a thrown
      -- network error stands in for it.
      (.error ⟨none, "fetch failed"⟩, st)
    | some u =>
      let baseHeaders :=
        [("Authorization", "Bearer " ++ env.token), ("Accept", "application/json")]
      -- An ok upstream response is returned as is; a non-ok one is re-wrapped
      -- with the same status and body text (await apiResponse.text()) and the
      -- content-type plus CORS headers, so the branches differ only in the
      -- headers of the Response.
      let run := fun (opts : FetchOptions) (st : St) =>
        let st := emit (.fetchUpstream u opts) st
        let r := env.fetchFn u opts
        (Except.ok
          (⟨r.status, r.body,
            if r.ok then r.headers
            else
              ("Content-Type", (getHeader r.headers "content-type").getD "text/plain")
                :: CORS_HEADERS⟩ : Response), st)
      if mutatingMethods.contains req.method then
        match req.jsonBody with
        | none =>
          (.ok ⟨400, "Invalid JSON body", ("Content-Type", "text/plain") :: CORS_HEADERS⟩, st)
        | some j =>
          run ⟨req.method, baseHeaders ++ [("Content-Type", "application/json")],
               some (Json.stringify j)⟩ st
      else
        run ⟨req.method, baseHeaders, none⟩ st

/-- The cache-hit test of CacheHandler.handle: for a GET with a computed
URL, the truthy cached value under the generated key, if any. -/
def cacheHitValue (apiUrl : String) (cs : RequestCache Json) (req : Request) : Option Json :=
  match getFullUrl apiUrl req with
  | some u =>
    if req.method == "GET" then
      match cs.get (generateCacheKey req u) with
      | some data => if jsTruthy data then some data else none
      | none => none
    else none
  | none => none

/-- Models CacheHandler.handle: for a GET with a computed URL, a truthy
cached value under the generated key is returned directly as a 200 JSON
response; otherwise the inner handler runs and a GET response is parsed,
stored under the key, and re-wrapped as a 200 JSON response (a body that
fails to parse propagates as a thrown SyntaxError). -/
def cacheHandle (apiUrl : String) (next : HandlerFn) : HandlerFn :=
  fun req st =>
    let st := emit .cacheLookup st
    let fullUrl := getFullUrl apiUrl req
    match cacheHitValue apiUrl st.cacheSt req with
    | some data =>
      (.ok ⟨200, Json.stringify data,
            [("Content-Type", "application/json"), ("X-Cache", "HIT")] ++ CORS_HEADERS⟩, st)
    | none =>
      match next req st with
      | (.ok resp, st2) =>
        match fullUrl with
        | some u =>
          if req.method == "GET" then
            match jsonParse resp.body with
            | some data =>
              let st3 := { st2 with cacheSt := st2.cacheSt.set (generateCacheKey req u) data }
              (.ok ⟨200, Json.stringify data,
                    [("Content-Type", "application/json"), ("X-Cache", "MISS")]
                      ++ CORS_HEADERS⟩, st3)
            | none => (.error ⟨none, "Unexpected token in JSON"⟩, st2)
          else (.ok resp, st2)
        | none => (.ok resp, st2)
      | (.error e, st2) => (.error e, st2)

/-- The composed apiHandler of src/api/index.js lines 324 to 356: method
validation wrapping body size, content type, logging, path validation,
timeout, cache and the upstream fetch. -/
def runChain (env : Env) : HandlerFn :=
  methodValidationHandle ALLOWED_METHODS
    (bodySizeHandle MAX_BODY_SIZE
      (contentTypeHandle
        (loggingHandle
          (validationHandle env.apiUrl
            (timeoutHandle
              (cacheHandle env.apiUrl
                (apiFetchHandle env)))))))

/-- Runs the composed handler on a fresh trace with the given cache state. -/
def runChainFresh (env : Env) (cs : RequestCache Json) (req : Request) :
    Except Err Response × St :=
  runChain env req ⟨[], cs⟩

/-- The stage kind of an event, payloads erased. -/
inductive EvTag where
  | methodT
  | sizeT
  | ctypeT
  | pathT
  | timeoutT
  | cacheT
  | fetchT
  | logT
  deriving DecidableEq

/-- Maps each trace event to its stage kind. -/
def tagOf : Ev → EvTag
  | .checkMethod => .methodT
  | .checkBodySize => .sizeT
  | .checkContentType => .ctypeT
  | .checkPath => .pathT
  | .armTimeout => .timeoutT
  | .cacheLookup => .cacheT
  | .fetchUpstream _ _ => .fetchT
  | .logLine _ => .logT

/-- The rejection condition of the path-validation stage: no computed full
URL, or one whose hostname differs from the configured upstream host. -/
def pathRejected (apiUrl : String) (req : Request) : Bool :=
  match getFullUrl apiUrl req with
  | none => true
  | some u => !(isValidPath u apiUrl)

/-- The stage-and-log order the composed pipeline follows (the amended
stage-order statement): the checks run as method validation, then body-size
check, then content-type check, then path validation, then timeout, then
cache lookup, then upstream fetch, each stage running only when every
earlier check passed (a failing stage short-circuits the rest) and a cache
hit or an unparseable body answering without a fetch.  The log tag marks
where LoggingHandler emits its line: after the fetch when one occurs, but
also on the path-rejection, cache-hit and invalid-body paths, which are
logged although no fetch ever happens — LoggingHandler sits inside the
content-type stage, not after the fetch stage. -/
def claimedStageTags (env : Env) (cs : RequestCache Json) (req : Request) : List EvTag :=
  .methodT ::
    (if !(ALLOWED_METHODS.contains req.method) then [] else
      .sizeT ::
        (if mutatingMethods.contains req.method && declaredTooLarge MAX_BODY_SIZE req then [] else
          .ctypeT ::
            (if mutatingMethods.contains req.method && badContentType req then [] else
              .pathT ::
                (if pathRejected env.apiUrl req then [.logT] else
                  .timeoutT :: .cacheT ::
                    (if (cacheHitValue env.apiUrl cs req).isSome then [.logT] else
                      (if mutatingMethods.contains req.method && req.jsonBody.isNone then
                        [.logT]
                       else [.fetchT, .logT]))))))

/-- One client-visible cache operation. -/
inductive CacheOp where
  | get (key : String)
  | set (key : String) (value : Json)

/-- Applies one operation to the cache (get does not modify it). -/
def applyCacheOp (c : RequestCache Json) : CacheOp → RequestCache Json
  | .get _ => c
  | .set k v => c.set k v

/-- Runs a sequence of operations on a freshly constructed RequestCache of
the given capacity. -/
def runCacheOps (maxSize : Nat) (ops : List CacheOp) : RequestCache Json :=
  ops.foldl applyCacheOp ⟨[], maxSize⟩

/-- A sample upstream for concrete runs: always ok with a small JSON body. -/
def sampleFetch : Url → FetchOptions → UpstreamResp :=
  fun _ _ => ⟨200, "\x7b\"ok\":true\x7d", [("content-type", "application/json")]⟩

/-- A sample deployment configuration. -/
def sampleEnv : Env := ⟨"https://api.themoviedb.org/3", "token123", sampleFetch⟩

/-- A sample inner handler, used to observe delegation. -/
def sampleNext : HandlerFn := fun _ st => (.ok ⟨200, "inner", []⟩, st)

/-- A fresh cache of the default capacity. -/
def emptyCache : RequestCache Json := ⟨[], 100⟩

/-- A fresh run state. -/
def sampleSt : St := ⟨[], emptyCache⟩

/-! Association-list lemmas for the JavaScript Map model. -/

theorem jsMapGet_set (m : List (String × α)) (k : String) (v : α) :
    jsMapGet (jsMapSet m k v) k = some v := by
  induction m with
  | nil => simp [jsMapSet, jsMapGet]
  | cons kv t ih =>
    obtain ⟨k0, v0⟩ := kv
    by_cases h : k0 == k
    · simp [jsMapSet, jsMapGet, h]
    · simp only [jsMapSet, h, Bool.false_eq_true, if_false]
      simpa [jsMapGet, List.find?, h] using ih

theorem jsMapSet_length_le (m : List (String × α)) (k : String) (v : α) :
    (jsMapSet m k v).length ≤ m.length + 1 := by
  induction m with
  | nil => simp [jsMapSet]
  | cons kv t ih =>
    obtain ⟨k0, v0⟩ := kv
    by_cases h : k0 == k
    · simp [jsMapSet, h]
    · simp only [jsMapSet, h, Bool.false_eq_true, if_false, List.length_cons]
      omega

/-- Claim C9: for every RequestCache, key and value, set followed by get of
the same key returns the stored value: the eviction performed by set happens
before the insertion, so it never removes the entry the same call stores. -/
theorem cacheSetThenGet (c : RequestCache Json) (k : String) (v : Json) :
    (c.set k v).get k = some v := by
  unfold RequestCache.set RequestCache.get
  exact jsMapGet_set _ k v

/-- Set never changes the configured capacity. -/
theorem rcSet_maxSize (c : RequestCache Json) (k : String) (v : Json) :
    (c.set k v).maxSize = c.maxSize := rfl

/-- At or above capacity, set on a nonempty cache first deletes the head
key and then stores the new entry. -/
theorem rcSet_full_cons (k0 : String) (v0 : Json) (t : List (String × Json))
    (ms : Nat) (hful : ms ≤ t.length + 1) (k : String) (v : Json) :
    (RequestCache.mk ((k0, v0) :: t) ms).set k v = ⟨jsMapSet t k v, ms⟩ := by
  unfold RequestCache.set
  simp [hful, jsMapDelete]

/-- Below capacity, set just stores the new entry. -/
theorem rcSet_not_full (cache : List (String × Json)) (ms : Nat)
    (hlt : cache.length < ms) (k : String) (v : Json) :
    (RequestCache.mk cache ms).set k v = ⟨jsMapSet cache k v, ms⟩ := by
  unfold RequestCache.set
  simp [Nat.not_le_of_lt hlt]

/-- One set keeps a bounded cache bounded (capacity at least one). -/
theorem rcSet_length_le (c : RequestCache Json) (h1 : 1 ≤ c.maxSize)
    (h : c.cache.length ≤ c.maxSize) (k : String) (v : Json) :
    (c.set k v).cache.length ≤ c.maxSize := by
  obtain ⟨cache, ms⟩ := c
  simp only at h1 h ⊢
  by_cases hful : ms ≤ cache.length
  · match cache, h, hful with
    | [], _, hful => simp at hful; omega
    | (k0, v0) :: t, h, hful =>
      rw [rcSet_full_cons k0 v0 t ms (by simpa using hful) k v]
      have := jsMapSet_length_le t k v
      simp only [List.length_cons] at h
      simp only
      omega
  · rw [rcSet_not_full cache ms (by omega) k v]
    have := jsMapSet_length_le cache k v
    simp only
    omega

/-- Every state reached by a run of operations from a fresh cache stays
bounded. -/
theorem runFoldBounded (ops : List CacheOp) (c : RequestCache Json)
    (h1 : 1 ≤ c.maxSize) (h : c.cache.length ≤ c.maxSize) :
    (ops.foldl applyCacheOp c).cache.length ≤ c.maxSize
    ∧ (ops.foldl applyCacheOp c).maxSize = c.maxSize := by
  induction ops generalizing c with
  | nil => exact ⟨h, rfl⟩
  | cons op t ih =>
    match op with
    | .get _ => simpa [applyCacheOp] using ih c h1 h
    | .set k v =>
      have h2 := rcSet_length_le c h1 h k v
      have h3 := rcSet_maxSize c k v
      have := ih (c.set k v) (by omega) (by omega)
      simpa [applyCacheOp, h3] using this

/-- Claim C4: a RequestCache of capacity at least one never holds more than
maxSize entries after any sequence of get and set operations from a fresh
instance, and a set performed at or above capacity evicts exactly the
least-recently-inserted entry (the head of insertion order) before storing
the new one. -/
theorem cacheBoundedAndEvictsOldest :
    (∀ (maxSize : Nat), 1 ≤ maxSize →
      ∀ ops : List CacheOp, (runCacheOps maxSize ops).cache.length ≤ maxSize)
    ∧ ∀ (c : RequestCache Json) (k : String) (v : Json), 1 ≤ c.maxSize →
        c.maxSize ≤ c.cache.length →
        ∃ k0 v0 t, c.cache = (k0, v0) :: t ∧ (c.set k v).cache = jsMapSet t k v := by
  constructor
  · intro maxSize h1 ops
    exact (runFoldBounded ops ⟨[], maxSize⟩ h1 (by simp)).1
  · intro c k v h1 hful
    obtain ⟨cache, ms⟩ := c
    simp only at h1 hful
    match cache, hful with
    | [], hful => simp at hful; omega
    | (k0, v0) :: t, hful =>
      refine ⟨k0, v0, t, rfl, ?_⟩
      rw [rcSet_full_cons k0 v0 t ms (by simpa using hful) k v]

/-- Witness for C4: a capacity-one cache after two sets holds one entry, and
the at-capacity set evicted the first key. -/
theorem cacheBoundedAndEvictsOldest_witness :
    (runCacheOps 1 [.set "a" (.jnum 1), .set "b" (.jnum 2)]).cache.length ≤ 1
    ∧ ∃ k0 v0 t, (RequestCache.mk [("a", Json.jnum 1)] 1).cache = (k0, v0) :: t
        ∧ ((RequestCache.mk [("a", Json.jnum 1)] 1).set "b" (.jnum 2)).cache =
            jsMapSet t "b" (.jnum 2) :=
  ⟨cacheBoundedAndEvictsOldest.1 1 (by decide) _,
   cacheBoundedAndEvictsOldest.2 ⟨[("a", .jnum 1)], 1⟩ "b" (.jnum 2) (by decide) (by decide)⟩

/-- Claim C6: a request whose method is not in the configured allowed list
is answered 405 with an Allow header listing exactly the permitted methods,
and the next stage never runs (the result does not involve next); a request
with an allowed method is passed unchanged to the next stage. -/
theorem methodValidationBehaviour (allowed : List String) (next : HandlerFn)
    (req : Request) (st : St) :
    (allowed.contains req.method = false →
      methodValidationHandle allowed next req st =
        (.ok ⟨405, "Method " ++ req.method ++ " not allowed",
              [("Allow", String.intercalate ", " allowed),
               ("Content-Type", "text/plain")] ++ CORS_HEADERS⟩,
         emit .checkMethod st))
    ∧ (allowed.contains req.method = true →
        methodValidationHandle allowed next req st = next req (emit .checkMethod st)) := by
  constructor
  · intro h
    have h2 : req.method ∉ allowed := by simpa using h
    simp [methodValidationHandle, h2]
  · intro h
    have h2 : req.method ∈ allowed := by simpa using h
    simp [methodValidationHandle, h2]

/-- Witness for C6: a TRACE request is answered 405 with the Allow header,
and a GET request is delegated. -/
theorem methodValidationBehaviour_witness :
    methodValidationHandle ALLOWED_METHODS sampleNext ⟨"TRACE", none, [], none⟩ sampleSt =
      (.ok ⟨405, "Method " ++ "TRACE" ++ " not allowed",
            [("Allow", String.intercalate ", " ALLOWED_METHODS),
             ("Content-Type", "text/plain")] ++ CORS_HEADERS⟩,
       emit .checkMethod sampleSt)
    ∧ methodValidationHandle ALLOWED_METHODS sampleNext ⟨"GET", none, [], none⟩ sampleSt =
        sampleNext ⟨"GET", none, [], none⟩ (emit .checkMethod sampleSt) :=
  ⟨(methodValidationBehaviour ALLOWED_METHODS sampleNext ⟨"TRACE", none, [], none⟩
      sampleSt).1 (by decide),
   (methodValidationBehaviour ALLOWED_METHODS sampleNext ⟨"GET", none, [], none⟩
      sampleSt).2 (by decide)⟩

/-- Claim C7: MAX_BODY_SIZE is five megabytes; a POST, PUT or PATCH request
whose declared content-length parses to a value above that limit is answered
413 without involving the next stage; requests of other methods, and
body-carrying requests whose declared length is within the limit, pass the
guard unchanged. -/
theorem bodySizeGuardBehaviour (next : HandlerFn) (req : Request) (st : St) :
    MAX_BODY_SIZE = 5 * 1024 * 1024
    ∧ (∀ v n, mutatingMethods.contains req.method = true →
        getHeader req.headers "content-length" = some v →
        parseIntJs v = some n → MAX_BODY_SIZE < n →
        bodySizeHandle MAX_BODY_SIZE next req st =
          (.ok ⟨413, "Payload too large, max " ++ toString MAX_BODY_SIZE ++ " bytes allowed",
                ("Content-Type", "text/plain") :: CORS_HEADERS⟩,
           emit .checkBodySize st))
    ∧ (mutatingMethods.contains req.method = false →
        bodySizeHandle MAX_BODY_SIZE next req st = next req (emit .checkBodySize st))
    ∧ (∀ v n, mutatingMethods.contains req.method = true →
        getHeader req.headers "content-length" = some v →
        parseIntJs v = some n → n ≤ MAX_BODY_SIZE →
        bodySizeHandle MAX_BODY_SIZE next req st = next req (emit .checkBodySize st)) := by
  refine ⟨by norm_num [MAX_BODY_SIZE], ?_, ?_, ?_⟩
  · intro v n hm hv hn hlt
    have hm2 : req.method ∈ mutatingMethods := by simpa using hm
    have hne : v ≠ "" := by
      intro h
      rw [h] at hn
      simp [parseIntJs] at hn
    simp [bodySizeHandle, declaredTooLarge, hm2, hv, hn, hlt, hne]
  · intro hm
    have hm2 : req.method ∉ mutatingMethods := by simpa using hm
    simp [bodySizeHandle, hm2]
  · intro v n hm hv hn hle
    simp [bodySizeHandle, declaredTooLarge, hv, hn, Int.not_lt.mpr hle]

/-- Witness for C7: a POST declaring six million bytes is answered 413, a
GET passes, and a POST declaring 100 bytes passes. -/
theorem bodySizeGuardBehaviour_witness :
    MAX_BODY_SIZE = 5 * 1024 * 1024
    ∧ bodySizeHandle MAX_BODY_SIZE sampleNext
        ⟨"POST", none, [("content-length", "6000000")], none⟩ sampleSt =
        (.ok ⟨413, "Payload too large, max " ++ toString MAX_BODY_SIZE ++ " bytes allowed",
              ("Content-Type", "text/plain") :: CORS_HEADERS⟩,
         emit .checkBodySize sampleSt)
    ∧ bodySizeHandle MAX_BODY_SIZE sampleNext ⟨"GET", none, [], none⟩ sampleSt =
        sampleNext ⟨"GET", none, [], none⟩ (emit .checkBodySize sampleSt)
    ∧ bodySizeHandle MAX_BODY_SIZE sampleNext
        ⟨"POST", none, [("content-length", "100")], none⟩ sampleSt =
        sampleNext ⟨"POST", none, [("content-length", "100")], none⟩
          (emit .checkBodySize sampleSt) :=
  ⟨(bodySizeGuardBehaviour sampleNext ⟨"GET", none, [], none⟩ sampleSt).1,
   (bodySizeGuardBehaviour sampleNext ⟨"POST", none, [("content-length", "6000000")], none⟩
      sampleSt).2.1 "6000000" 6000000 (by decide) (by decide) (by decide) (by decide),
   (bodySizeGuardBehaviour sampleNext ⟨"GET", none, [], none⟩ sampleSt).2.2.1 (by decide),
   (bodySizeGuardBehaviour sampleNext ⟨"POST", none, [("content-length", "100")], none⟩
      sampleSt).2.2.2 "100" 100 (by decide) (by decide) (by decide) (by decide)⟩

/-- Claim C8: a POST, PUT or PATCH request whose content-type header is
absent, empty, or does not include application/json is answered 415 without
involving the next stage; GET, DELETE and OPTIONS requests always pass the
guard unchanged. -/
theorem contentTypeGuardBehaviour (next : HandlerFn) (req : Request) (st : St) :
    (mutatingMethods.contains req.method = true →
      getHeader req.headers "content-type" = none →
      contentTypeHandle next req st =
        (.ok ⟨415, "Content-Type must be application/json",
              ("Content-Type", "text/plain") :: CORS_HEADERS⟩,
         emit .checkContentType st))
    ∧ (∀ v, mutatingMethods.contains req.method = true →
        getHeader req.headers "content-type" = some v →
        strIncludes v "application/json" = false →
        contentTypeHandle next req st =
          (.ok ⟨415, "Content-Type must be application/json",
                ("Content-Type", "text/plain") :: CORS_HEADERS⟩,
           emit .checkContentType st))
    ∧ (req.method = "GET" ∨ req.method = "DELETE" ∨ req.method = "OPTIONS" →
        contentTypeHandle next req st = next req (emit .checkContentType st)) := by
  refine ⟨?_, ?_, ?_⟩
  · intro hm hv
    have hm2 : req.method ∈ mutatingMethods := by simpa using hm
    simp [contentTypeHandle, badContentType, hm2, hv]
  · intro v hm hv hinc
    have hm2 : req.method ∈ mutatingMethods := by simpa using hm
    simp [contentTypeHandle, badContentType, hm2, hv, hinc]
  · intro hmeth
    have hm2 : req.method ∉ mutatingMethods := by
      rcases hmeth with h | h | h <;> rw [h] <;> decide
    simp [contentTypeHandle, hm2]

/-- Witness for C8: a POST without a content-type header and a POST with a
text content type are answered 415; a GET passes. -/
theorem contentTypeGuardBehaviour_witness :
    contentTypeHandle sampleNext ⟨"POST", none, [], none⟩ sampleSt =
      (.ok ⟨415, "Content-Type must be application/json",
            ("Content-Type", "text/plain") :: CORS_HEADERS⟩,
       emit .checkContentType sampleSt)
    ∧ contentTypeHandle sampleNext ⟨"POST", none, [("content-type", "text/plain")], none⟩
        sampleSt =
        (.ok ⟨415, "Content-Type must be application/json",
              ("Content-Type", "text/plain") :: CORS_HEADERS⟩,
         emit .checkContentType sampleSt)
    ∧ contentTypeHandle sampleNext ⟨"GET", none, [], none⟩ sampleSt =
        sampleNext ⟨"GET", none, [], none⟩ (emit .checkContentType sampleSt) :=
  ⟨(contentTypeGuardBehaviour sampleNext ⟨"POST", none, [], none⟩ sampleSt).1
      (by decide) (by decide),
   (contentTypeGuardBehaviour sampleNext ⟨"POST", none, [("content-type", "text/plain")],
      none⟩ sampleSt).2.1 "text/plain" (by decide) (by decide) (by decide),
   (contentTypeGuardBehaviour sampleNext ⟨"GET", none, [], none⟩ sampleSt).2.2
      (Or.inl rfl)⟩

/-- Claim C10: a POST, PUT or PATCH request carrying no content-length
header passes the body-size guard to the next stage whatever its body is:
the 413 decision reads only the declared header and never the body. -/
theorem bodySizeIgnoresActualBody (maxSize : Int) (next : HandlerFn) (req : Request)
    (st : St) (b : Option String) :
    mutatingMethods.contains req.method = true →
    getHeader req.headers "content-length" = none →
    bodySizeHandle maxSize next { req with body := b } st =
      next { req with body := b } (emit .checkBodySize st) := by
  intro hm hv
  simp [bodySizeHandle, declaredTooLarge, hv]

/-- Witness for C10: a POST with no content-length and an arbitrary large
body passes the guard. -/
theorem bodySizeIgnoresActualBody_witness :
    bodySizeHandle MAX_BODY_SIZE sampleNext
      ⟨"POST", none, [("content-type", "application/json")], some "0123456789"⟩ sampleSt =
      sampleNext ⟨"POST", none, [("content-type", "application/json")], some "0123456789"⟩
        (emit .checkBodySize sampleSt) :=
  bodySizeIgnoresActualBody MAX_BODY_SIZE sampleNext
    ⟨"POST", none, [("content-type", "application/json")], none⟩ sampleSt
    (some "0123456789") (by decide) (by decide)

/-- Claim C5: a request reaching the upstream-fetch stage is forwarded with
an Authorization header of the form Bearer token and an Accept header of
application/json; for POST, PUT and PATCH the JSON body is parsed,
re-serialized, and forwarded with Content-Type application/json (a parse
failure is answered 400 and nothing is fetched), while for non-body methods
such as GET no body is forwarded. -/
theorem upstreamForwarding (env : Env) (req : Request) (st : St) (u : Url)
    (hu : getFullUrl env.apiUrl req = some u) :
    (mutatingMethods.contains req.method = false →
      (apiFetchHandle env req st).2.events =
        st.events ++ [.fetchUpstream u ⟨req.method,
          [("Authorization", "Bearer " ++ env.token), ("Accept", "application/json")],
          none⟩])
    ∧ (∀ j, mutatingMethods.contains req.method = true → req.jsonBody = some j →
        (apiFetchHandle env req st).2.events =
          st.events ++ [.fetchUpstream u ⟨req.method,
            [("Authorization", "Bearer " ++ env.token), ("Accept", "application/json"),
             ("Content-Type", "application/json")],
            some (Json.stringify j)⟩])
    ∧ (mutatingMethods.contains req.method = true → req.jsonBody = none →
        apiFetchHandle env req st =
          (.ok ⟨400, "Invalid JSON body", ("Content-Type", "text/plain") :: CORS_HEADERS⟩,
           st)) := by
  refine ⟨?_, ?_, ?_⟩
  · intro hm
    have hm2 : req.method ∉ mutatingMethods := by simpa using hm
    simp [apiFetchHandle, hu, hm2, emit]
  · intro j hm hj
    have hm2 : req.method ∈ mutatingMethods := by simpa using hm
    simp [apiFetchHandle, hu, hm2, hj, emit]
  · intro hm hj
    have hm2 : req.method ∈ mutatingMethods := by simpa using hm
    simp [apiFetchHandle, hu, hm2, hj]

/-- Witness for C5: a GET fetch carries the credential headers and no body;
a POST with a JSON body forwards the re-serialized body; a POST with an
invalid body is answered 400. -/
theorem upstreamForwarding_witness :
    (apiFetchHandle sampleEnv ⟨"GET", some "/movie/7", [], none⟩ sampleSt).2.events =
      sampleSt.events ++ [.fetchUpstream ⟨"https", "api.themoviedb.org", "/movie/7"⟩
        ⟨"GET", [("Authorization", "Bearer " ++ sampleEnv.token),
                 ("Accept", "application/json")], none⟩]
    ∧ (apiFetchHandle sampleEnv
        ⟨"POST", some "/movie/7", [], some "\x7b\"a\": 1\x7d"⟩ sampleSt).2.events =
        sampleSt.events ++ [.fetchUpstream ⟨"https", "api.themoviedb.org", "/movie/7"⟩
          ⟨"POST", [("Authorization", "Bearer " ++ sampleEnv.token),
                    ("Accept", "application/json"),
                    ("Content-Type", "application/json")],
           some (Json.stringify (.jobj [("a", .jnum 1)]))⟩]
    ∧ apiFetchHandle sampleEnv ⟨"POST", some "/movie/7", [], some "nope"⟩ sampleSt =
        (.ok ⟨400, "Invalid JSON body", ("Content-Type", "text/plain") :: CORS_HEADERS⟩,
         sampleSt) :=
  ⟨(upstreamForwarding sampleEnv ⟨"GET", some "/movie/7", [], none⟩ sampleSt
      ⟨"https", "api.themoviedb.org", "/movie/7"⟩ (by decide)).1 (by decide),
   (upstreamForwarding sampleEnv ⟨"POST", some "/movie/7", [], some "\x7b\"a\": 1\x7d"⟩
      sampleSt ⟨"https", "api.themoviedb.org", "/movie/7"⟩ (by decide)).2.1
      (.jobj [("a", .jnum 1)]) (by decide) (by rfl),
   (upstreamForwarding sampleEnv ⟨"POST", some "/movie/7", [], some "nope"⟩ sampleSt
      ⟨"https", "api.themoviedb.org", "/movie/7"⟩ (by decide)).2.2 (by decide) (by rfl)⟩

end TmdbProxy
namespace TmdbProxy

theorem mem_mutating_ne_get {m : String} (h : m ∈ mutatingMethods) :
    (m == "GET") = false := by
  fin_cases h <;> rfl

theorem chainTagsEq (env : Env) (cs : RequestCache Json) (req : Request) :
    ((runChainFresh env cs req).2.events).map tagOf = claimedStageTags env cs req := by
  unfold runChainFresh runChain claimedStageTags
  by_cases hm : req.method ∈ ALLOWED_METHODS
  case neg =>
    simp [methodValidationHandle, emit, hm, tagOf]
  case pos =>
    simp only [methodValidationHandle, emit]
    rw [if_pos (by simpa using hm)]
    by_cases hmu : req.method ∈ mutatingMethods
    case pos =>
      have hng := mem_mutating_ne_get hmu
      by_cases hd : declaredTooLarge MAX_BODY_SIZE req = true
      case pos =>
        simp [bodySizeHandle, emit, hm, hmu, hd, tagOf]
      case neg =>
        simp only [bodySizeHandle, emit]
        rw [if_neg (by simp [hmu, hd])]
        by_cases hct : badContentType req = true
        case pos =>
          simp [contentTypeHandle, emit, hm, hmu, hd, hct, tagOf]
        case neg =>
          simp only [contentTypeHandle, emit]
          rw [if_neg (by simp [hmu, hct])]
          cases hp : getFullUrl env.apiUrl req with
          | none =>
            simp [loggingHandle, validationHandle, emit, hm, hmu, hd, hct, hp,
              pathRejected, tagOf]
          | some u =>
            by_cases hv : isValidPath u env.apiUrl
            case neg =>
              simp [loggingHandle, validationHandle, emit, hm, hmu, hd, hct, hp, hv,
                pathRejected, tagOf]
            case pos =>
              simp only [loggingHandle, validationHandle, emit, hp]
              rw [if_pos hv]
              cases hj : req.jsonBody with
              | none =>
                simp [timeoutHandle, cacheHandle, apiFetchHandle, cacheHitValue, emit,
                  hm, hmu, hd, hct, hp, hv, hj, hng, pathRejected, tagOf]
              | some j =>
                simp [timeoutHandle, cacheHandle, apiFetchHandle, cacheHitValue, emit,
                  hm, hmu, hd, hct, hp, hv, hj, hng, pathRejected, tagOf]
    case neg =>
      simp only [bodySizeHandle, emit]
      rw [if_neg (by simp [hmu])]
      simp only [contentTypeHandle, emit]
      rw [if_neg (by simp [hmu])]
      cases hp : getFullUrl env.apiUrl req with
      | none =>
        simp [loggingHandle, validationHandle, emit, hm, hmu, hp, pathRejected, tagOf]
      | some u =>
        by_cases hv : isValidPath u env.apiUrl
        case neg =>
          simp [loggingHandle, validationHandle, emit, hm, hmu, hp, hv, pathRejected, tagOf]
        case pos =>
          simp only [loggingHandle, validationHandle, emit, hp]
          rw [if_pos hv]
          by_cases hg : (req.method == "GET") = true
          case pos =>
            cases hh : cacheHitValue env.apiUrl cs req with
            | some d =>
              simp [timeoutHandle, cacheHandle, emit, hm, hmu, hp, hv, hg, hh,
                pathRejected, tagOf]
            | none =>
              cases hjp : jsonParse (env.fetchFn u
                  ⟨req.method,
                   [("Authorization", "Bearer " ++ env.token), ("Accept", "application/json")],
                   none⟩).body with
              | some d =>
                simp [timeoutHandle, cacheHandle, apiFetchHandle, emit, hm, hmu, hp, hv,
                  hg, hh, hjp, pathRejected, tagOf]
              | none =>
                simp [timeoutHandle, cacheHandle, apiFetchHandle, emit, hm, hmu, hp, hv,
                  hg, hh, hjp, pathRejected, tagOf]
          case neg =>
            simp [timeoutHandle, cacheHandle, apiFetchHandle, cacheHitValue, emit, hm,
              hmu, hp, hv, hg, pathRejected, tagOf]

theorem chainRespPathInvalid (env : Env) (cs : RequestCache Json) (req : Request)
    (hm : req.method ∈ ALLOWED_METHODS)
    (hb : ¬(req.method ∈ mutatingMethods ∧ declaredTooLarge MAX_BODY_SIZE req = true))
    (hc : ¬(req.method ∈ mutatingMethods ∧ badContentType req = true))
    (hpr : pathRejected env.apiUrl req = true) :
    (runChainFresh env cs req).1 = .ok invalidPathResponse := by
  unfold runChainFresh runChain
  simp only [methodValidationHandle, emit]
  rw [if_pos (by simpa using hm)]
  simp only [bodySizeHandle, emit]
  rw [if_neg (by simpa using hb)]
  simp only [contentTypeHandle, emit]
  rw [if_neg (by simpa using hc)]
  unfold pathRejected at hpr
  cases hp : getFullUrl env.apiUrl req with
  | none => simp [loggingHandle, validationHandle, emit, hp]
  | some u =>
    rw [hp] at hpr
    simp only [Bool.not_eq_true'] at hpr
    simp [loggingHandle, validationHandle, emit, hp, hpr]

theorem chainFetchMem (env : Env) (cs : RequestCache Json) (req : Request) (u : Url)
    (opts : FetchOptions)
    (hmem : Ev.fetchUpstream u opts ∈ (runChainFresh env cs req).2.events) :
    getFullUrl env.apiUrl req = some u ∧ isValidPath u env.apiUrl = true := by
  unfold runChainFresh runChain at hmem
  by_cases hm : req.method ∈ ALLOWED_METHODS
  case neg =>
    simp [methodValidationHandle, emit, hm] at hmem
  case pos =>
    simp only [methodValidationHandle, emit] at hmem
    rw [if_pos (by simpa using hm)] at hmem
    by_cases hmu : req.method ∈ mutatingMethods
    case pos =>
      have hng := mem_mutating_ne_get hmu
      by_cases hd : declaredTooLarge MAX_BODY_SIZE req = true
      case pos =>
        simp [bodySizeHandle, emit, hmu, hd] at hmem
      case neg =>
        simp only [bodySizeHandle, emit] at hmem
        rw [if_neg (by simp [hmu, hd])] at hmem
        by_cases hct : badContentType req = true
        case pos =>
          simp [contentTypeHandle, emit, hmu, hct] at hmem
        case neg =>
          simp only [contentTypeHandle, emit] at hmem
          rw [if_neg (by simp [hmu, hct])] at hmem
          cases hp : getFullUrl env.apiUrl req with
          | none =>
            simp [loggingHandle, validationHandle, emit, hp] at hmem
          | some u2 =>
            by_cases hv : isValidPath u2 env.apiUrl
            case neg =>
              simp [loggingHandle, validationHandle, emit, hp, hv] at hmem
            case pos =>
              simp only [loggingHandle, validationHandle, emit, hp] at hmem
              rw [if_pos hv] at hmem
              cases hj : req.jsonBody with
              | none =>
                simp [timeoutHandle, cacheHandle, apiFetchHandle, cacheHitValue, emit,
                  hp, hj, hng, hmu] at hmem
              | some j =>
                simp only [timeoutHandle, cacheHandle, apiFetchHandle, cacheHitValue,
                  emit, hp, hj, hng] at hmem
                simp [hng, hmu] at hmem
                obtain ⟨h1, h2⟩ := hmem
                refine ⟨?_, ?_⟩ <;> simp_all
    case neg =>
      simp only [bodySizeHandle, emit] at hmem
      rw [if_neg (by simp [hmu])] at hmem
      simp only [contentTypeHandle, emit] at hmem
      rw [if_neg (by simp [hmu])] at hmem
      cases hp : getFullUrl env.apiUrl req with
      | none =>
        simp [loggingHandle, validationHandle, emit, hp] at hmem
      | some u2 =>
        by_cases hv : isValidPath u2 env.apiUrl
        case neg =>
          simp [loggingHandle, validationHandle, emit, hp, hv] at hmem
        case pos =>
          simp only [loggingHandle, validationHandle, emit, hp] at hmem
          rw [if_pos hv] at hmem
          by_cases hg : (req.method == "GET") = true
          case pos =>
            cases hh : cacheHitValue env.apiUrl cs req with
            | some d =>
              simp [timeoutHandle, cacheHandle, emit, hh] at hmem
            | none =>
              cases hjp : jsonParse (env.fetchFn u2
                  ⟨req.method,
                   [("Authorization", "Bearer " ++ env.token), ("Accept", "application/json")],
                   none⟩).body with
              | some d =>
                simp only [timeoutHandle, cacheHandle, apiFetchHandle, emit, hp, hh,
                  hjp] at hmem
                simp [hg, hjp, hmu] at hmem
                obtain ⟨h1, h2⟩ := hmem
                refine ⟨?_, ?_⟩ <;> simp_all
              | none =>
                simp only [timeoutHandle, cacheHandle, apiFetchHandle, emit, hp, hh,
                  hjp] at hmem
                simp [hg, hjp, hmu] at hmem
                obtain ⟨h1, h2⟩ := hmem
                refine ⟨?_, ?_⟩ <;> simp_all
          case neg =>
            simp only [timeoutHandle, cacheHandle, apiFetchHandle, cacheHitValue, emit,
              hp, hg] at hmem
            simp [hg, hmu] at hmem
            obtain ⟨h1, h2⟩ := hmem
            refine ⟨?_, ?_⟩ <;> simp_all

theorem chainHitResp (env : Env) (cs : RequestCache Json) (req : Request) (u : Url)
    (d : Json)
    (hg : req.method = "GET")
    (hp : getFullUrl env.apiUrl req = some u)
    (hv : isValidPath u env.apiUrl = true)
    (hh : cs.get (generateCacheKey req u) = some d)
    (ht : jsTruthy d = true) :
    (runChainFresh env cs req).1 =
      .ok ⟨200, Json.stringify d,
           [("Content-Type", "application/json"), ("X-Cache", "HIT")] ++ CORS_HEADERS⟩
    ∧ ∀ u2 o2, Ev.fetchUpstream u2 o2 ∉ (runChainFresh env cs req).2.events := by
  have hm : req.method ∈ ALLOWED_METHODS := by rw [hg]; decide
  have hmu : req.method ∉ mutatingMethods := by rw [hg]; decide
  have hgb : (req.method == "GET") = true := by rw [hg]; rfl
  have hcv : cacheHitValue env.apiUrl cs req = some d := by
    simp [cacheHitValue, hp, hgb, hh, ht]
  unfold runChainFresh runChain
  simp only [methodValidationHandle, emit]
  rw [if_pos (by simpa using hm)]
  simp only [bodySizeHandle, emit]
  rw [if_neg (by simp [hmu])]
  simp only [contentTypeHandle, emit]
  rw [if_neg (by simp [hmu])]
  simp only [loggingHandle, validationHandle, emit, hp]
  rw [if_pos hv]
  simp [timeoutHandle, cacheHandle, emit, hcv]

theorem fetchT_not_in_claimed_of_pathRejected (env : Env) (cs : RequestCache Json)
    (req : Request) (hpr : pathRejected env.apiUrl req = true) :
    EvTag.fetchT ∉ claimedStageTags env cs req := by
  intro hmem
  simp only [claimedStageTags, hpr, if_true] at hmem
  split_ifs at hmem <;> simp_all

/-- Claim C1: the path-validation stage lets a request proceed toward the
upstream fetch only when the full URL computed from the path query parameter
has the hostname of the configured API_URL: any performed fetch is at the
computed URL and that URL passed the hostname check, and a request whose
path parameter is missing or whose computed URL resolves to a different host
triggers no fetch and, when the earlier guards pass, is answered 400. -/
theorem validationGatesUpstream (env : Env) (cs : RequestCache Json) (req : Request) :
    (∀ u opts, Ev.fetchUpstream u opts ∈ (runChainFresh env cs req).2.events →
        getFullUrl env.apiUrl req = some u ∧ isValidPath u env.apiUrl = true)
    ∧ ((req.pathParam = none ∨
          ∃ u, getFullUrl env.apiUrl req = some u ∧ isValidPath u env.apiUrl = false) →
        (∀ u opts, Ev.fetchUpstream u opts ∉ (runChainFresh env cs req).2.events)
        ∧ (req.method ∈ ALLOWED_METHODS →
            ¬(req.method ∈ mutatingMethods ∧ declaredTooLarge MAX_BODY_SIZE req = true) →
            ¬(req.method ∈ mutatingMethods ∧ badContentType req = true) →
            (runChainFresh env cs req).1 = .ok invalidPathResponse)) := by
  constructor
  · intro u opts hmem
    exact chainFetchMem env cs req u opts hmem
  · intro hinv
    have hpr : pathRejected env.apiUrl req = true := by
      rcases hinv with h | ⟨u, hu, hv⟩
      · have h0 : getFullUrl env.apiUrl req = none := by
          unfold getFullUrl
          rw [h]
        simp [pathRejected, h0]
      · simp [pathRejected, hu, hv]
    refine ⟨?_, ?_⟩
    · intro u opts hmem
      have h1 := List.mem_map_of_mem tagOf hmem
      rw [chainTagsEq env cs req] at h1
      exact fetchT_not_in_claimed_of_pathRejected env cs req hpr (by simpa [tagOf] using h1)
    · intro h1 h2 h3
      exact chainRespPathInvalid env cs req h1 h2 h3 hpr

/-- Witness for C1: a GET for an absolute URL on a foreign host is answered
400. -/
theorem validationGatesUpstream_witness :
    (runChainFresh sampleEnv emptyCache
        ⟨"GET", some "https://evil.com/x", [], none⟩).1 = .ok invalidPathResponse :=
  ((validationGatesUpstream sampleEnv emptyCache
      ⟨"GET", some "https://evil.com/x", [], none⟩).2
    (Or.inr ⟨⟨"https", "evil.com", "/x"⟩, by decide, by decide⟩)).2
    (by decide) (by decide) (by decide)

/-- Counterexample to claim C3 as stated: two GET requests computing the
same upstream URL but differing in the accept header are keyed differently
by generateCacheKey, so the key is not composed of method and URL alone and
the two requests do not address the same cache entry. -/
theorem cacheKeyNotMethodUrlOnly :
    (⟨"GET", some "/movie/7", [("accept", "application/json")], none⟩ : Request).method =
      (⟨"GET", some "/movie/7", [], none⟩ : Request).method
    ∧ getFullUrl sampleEnv.apiUrl
        ⟨"GET", some "/movie/7", [("accept", "application/json")], none⟩ =
      getFullUrl sampleEnv.apiUrl ⟨"GET", some "/movie/7", [], none⟩
    ∧ generateCacheKey ⟨"GET", some "/movie/7", [("accept", "application/json")], none⟩
        ⟨"https", "api.themoviedb.org", "/movie/7"⟩ ≠
      generateCacheKey ⟨"GET", some "/movie/7", [], none⟩
        ⟨"https", "api.themoviedb.org", "/movie/7"⟩ :=
  ⟨rfl, by decide, by decide⟩

/-- Claim C3 amended: the cache key is composed of the method, the computed
upstream URL, and a headers component recording the accept header value and
the presence of an authorization header; a GET request holding a truthy
cached value under its key is answered 200 with the cached data, as JSON,
without any upstream fetch; and two GET requests agreeing on method,
computed URL, accept header and authorization presence address the same
cache entry. -/
theorem cacheKeyAndHitBehaviour (env : Env) (cs : RequestCache Json) :
    (∀ (req : Request) (u : Url),
        generateCacheKey req u =
          req.method ++ ":" ++ urlToString u ++ ":" ++
            Json.stringify (.jobj
              [("accept",
                match getHeader req.headers "accept" with
                | some v => .jstr v
                | none => .jnull),
               ("authorization",
                 if authHeaderTruthy req then .jstr "present" else .jnull)]))
    ∧ (∀ (r1 r2 : Request) (u : Url), r1.method = r2.method →
        getHeader r1.headers "accept" = getHeader r2.headers "accept" →
        authHeaderTruthy r1 = authHeaderTruthy r2 →
        generateCacheKey r1 u = generateCacheKey r2 u)
    ∧ (∀ (req : Request) (u : Url) (d : Json), req.method = "GET" →
        getFullUrl env.apiUrl req = some u → isValidPath u env.apiUrl = true →
        cs.get (generateCacheKey req u) = some d → jsTruthy d = true →
        (runChainFresh env cs req).1 =
          .ok ⟨200, Json.stringify d,
               [("Content-Type", "application/json"), ("X-Cache", "HIT")] ++ CORS_HEADERS⟩
        ∧ ∀ u2 o2, Ev.fetchUpstream u2 o2 ∉ (runChainFresh env cs req).2.events) := by
  refine ⟨fun req u => rfl, ?_, ?_⟩
  · intro r1 r2 u h1 h2 h3
    unfold generateCacheKey
    rw [h1, h2, h3]
  · intro req u d hg hp hv hh ht
    exact chainHitResp env cs req u d hg hp hv hh ht

/-- Witness for the amended C3: a GET whose key holds a cached object is
answered 200 with the cached data. -/
theorem cacheKeyAndHitBehaviour_witness :
    (runChainFresh sampleEnv
        ⟨[(generateCacheKey ⟨"GET", some "/movie/7", [("accept", "application/json")], none⟩
             ⟨"https", "api.themoviedb.org", "/movie/7"⟩,
           Json.jobj [("cached", Json.jbool true)])], 100⟩
        ⟨"GET", some "/movie/7", [("accept", "application/json")], none⟩).1 =
      .ok ⟨200, Json.stringify (Json.jobj [("cached", Json.jbool true)]),
           [("Content-Type", "application/json"), ("X-Cache", "HIT")] ++ CORS_HEADERS⟩ :=
  ((cacheKeyAndHitBehaviour sampleEnv
      ⟨[(generateCacheKey ⟨"GET", some "/movie/7", [("accept", "application/json")], none⟩
           ⟨"https", "api.themoviedb.org", "/movie/7"⟩,
         Json.jobj [("cached", Json.jbool true)])], 100⟩).2.2
    ⟨"GET", some "/movie/7", [("accept", "application/json")], none⟩
    ⟨"https", "api.themoviedb.org", "/movie/7"⟩
    (Json.jobj [("cached", Json.jbool true)])
    rfl (by decide) (by decide) (by rfl) rfl).1

end TmdbProxy
